import Mathlib

/-!
Shallow embedding of the spaced-repetition scheduler of
`src/backend/app/models/flashcards.py` (class `Flashcard`, methods
`record_review` and `calculate_memory_strength`).

Python floats are modelled as exact rationals (the constants 0.1, 0.08,
0.02, 1.3, 0.5 and all values reached by the claims are exactly
representable and the float computations of the source round to the same
decimals at the claims' inputs); timestamps are integers counting seconds,
so one day is 86400.  Python's `timedelta.days` floor-truncates, which is
`Int.fdiv` by 86400; Python's `round` is round-half-to-even, embedded as
`pyRound`.  The Python expression `time_elapsed / (self.interval * 0.5)`
raises `ZeroDivisionError` when `interval = 0`, so the strength estimate
is embedded as an `Option`, `none` on that fault.
-/

namespace Tutor

/-- The scheduling fields of a `Flashcard` row: `ease_factor` (float,
default 2.5), `interval` (integer days), `repetition`, and the
`next_review` / `updated_at` timestamps (seconds). -/
structure Flashcard where
  ease_factor : ℚ
  interval : ℤ
  repetition : ℤ
  next_review : ℤ
  updated_at : ℤ
  deriving Repr, DecidableEq

/-- Seconds in a day; `timedelta(days=n)` is `n * 86400` seconds. -/
def secondsPerDay : ℤ := 86400

/-- Python 3 `round` on a real value: round half to even. -/
def pyRound (q : ℚ) : ℤ :=
  let f := ⌊q⌋
  let frac := q - f
  if frac < 1/2 then f
  else if 1/2 < frac then f + 1
  else if f % 2 = 0 then f else f + 1

/-- `Flashcard.record_review(quality_response)` with the wall clock
`datetime.utcnow()` passed explicitly as `now`.  Mirrors the source:
clamp the quality to [0,5]; on a lapse (`quality < 3`) reset repetition
and interval and keep the ease factor; on a success update the ease
factor with a 1.3 floor, pick the interval from the pre-increment
repetition count, and increment the repetition; finally schedule
`next_review = now + interval days` and stamp `updated_at = now`. -/
def record_review (s : Flashcard) (quality_response : ℚ) (now : ℤ) : Flashcard :=
  let quality := min (max quality_response 0) 5
  let s1 :=
    if quality < 3 then
      { s with repetition := 0, interval := 1 }
    else
      let ef := max 1.3 (s.ease_factor +
        (0.1 - (5 - quality) * (0.08 + (5 - quality) * 0.02)))
      let itv : ℤ :=
        if s.repetition = 0 then 1
        else if s.repetition = 1 then 6
        else pyRound ((s.interval : ℚ) * ef)
      { s with ease_factor := ef, interval := itv, repetition := s.repetition + 1 }
  { s1 with next_review := now + s1.interval * secondsPerDay, updated_at := now }

/-- `Flashcard.calculate_memory_strength()` with `datetime.utcnow()`
passed explicitly as `now`.  `time_elapsed` is `timedelta.days`, a floor
division of the elapsed seconds by 86400 (negative when `now` precedes
`updated_at`).  The source divides by `interval * 0.5` with no guard, so
`interval = 0` raises `ZeroDivisionError`: embedded as `none`. -/
def calculate_memory_strength (s : Flashcard) (now : ℤ) : Option ℚ :=
  let time_elapsed : ℤ := Int.fdiv (now - s.updated_at) secondsPerDay
  if s.interval = 0 then none
  else
    let memory : ℚ := 1 / (1 + ((time_elapsed : ℚ) / ((s.interval : ℚ) * 0.5)) ^ 2)
    some (max 0 (min 1 memory))

/-- A sequence of reviews applied in order: each element is a pair of the
quality response and the instant of the review. -/
def applyReviews (s : Flashcard) (l : List (ℚ × ℤ)) : Flashcard :=
  l.foldl (fun st qr => record_review st qr.1 qr.2) s

/-- A freshly initialized card state at time 0:
`ease_factor = 2.5, interval = 1, repetition = 0`. -/
def freshCard : Flashcard :=
  { ease_factor := 2.5, interval := 1, repetition := 0
    next_review := 0, updated_at := 0 }

def c1_s1 : Flashcard := record_review freshCard 4 0
def c1_s2 : Flashcard := record_review c1_s1 5 secondsPerDay
def c1_s3 : Flashcard := record_review c1_s2 2 (7 * secondsPerDay)

/-- C1: from a fresh card (`ease_factor=2.5, interval=1, repetition=0`),
quality 4 at day 0 gives `repetition=1, interval=1, next_review=day 1`;
then quality 5 at day 1 gives `repetition=2, interval=6,
ease_factor=2.6, next_review=day 7`; then quality 2 at day 7 gives
`repetition=0, interval=1, ease_factor still 2.6, next_review=day 8`. -/
theorem C1_end_to_end_scenario :
    (c1_s1.repetition = 1 ∧ c1_s1.interval = 1 ∧
      c1_s1.next_review = 1 * secondsPerDay) ∧
    (c1_s2.repetition = 2 ∧ c1_s2.interval = 6 ∧ c1_s2.ease_factor = 2.6 ∧
      c1_s2.next_review = 7 * secondsPerDay) ∧
    (c1_s3.repetition = 0 ∧ c1_s3.interval = 1 ∧ c1_s3.ease_factor = 2.6 ∧
      c1_s3.next_review = 8 * secondsPerDay) := by
  norm_num [c1_s1, c1_s2, c1_s3, record_review, freshCard, secondsPerDay,
    max_def, min_def]

/-- One review update keeps the 1.3 floor on the ease factor: the lapse
branch leaves it unchanged, the success branch is a `max` with 1.3. -/
lemma record_review_ease_floor (s : Flashcard) (q : ℚ) (now : ℤ)
    (h : (1.3 : ℚ) ≤ s.ease_factor) :
    (1.3 : ℚ) ≤ (record_review s q now).ease_factor := by
  unfold record_review
  dsimp only
  split
  · exact h
  · exact le_max_left _ _

/-- C2: for every sequence of review updates applied to a state whose
ease factor is ≥ 1.3 (the fresh default is 2.5), the ease factor of the
resulting state is ≥ 1.3; instantiated at every prefix of a review
history this gives the floor after every update. -/
theorem C2_ease_factor_floor (s : Flashcard) (l : List (ℚ × ℤ))
    (h : (1.3 : ℚ) ≤ s.ease_factor) :
    (1.3 : ℚ) ≤ (applyReviews s l).ease_factor := by
  induction l generalizing s with
  | nil => exact h
  | cons p t ih => exact ih _ (record_review_ease_floor s p.1 p.2 h)

/-- Witness for C2 at the fresh card and the three-review history of the
end-to-end scenario. -/
theorem C2_ease_factor_floor_witness :
    (1.3 : ℚ) ≤ (applyReviews freshCard
      [(4, 0), (5, secondsPerDay), (2, 7 * secondsPerDay)]).ease_factor :=
  C2_ease_factor_floor freshCard
    [(4, 0), (5, secondsPerDay), (2, 7 * secondsPerDay)] (by norm_num [freshCard])

/-- C3: on a success (clamped quality ≥ 3) the new interval is computed
from the repetition count before it is incremented — repetition 0 gives
interval 1, repetition 1 gives interval 6, repetition ≥ 2 gives
`round(old interval × new ease factor)` — and the repetition is then
incremented by one. -/
theorem C3_success_interval_law (s : Flashcard) (q : ℚ) (now : ℤ)
    (hrep : 0 ≤ s.repetition) (hq : 3 ≤ min (max q 0) 5) :
    (record_review s q now).repetition = s.repetition + 1 ∧
    (s.repetition = 0 → (record_review s q now).interval = 1) ∧
    (s.repetition = 1 → (record_review s q now).interval = 6) ∧
    (2 ≤ s.repetition → (record_review s q now).interval =
      pyRound ((s.interval : ℚ) * (record_review s q now).ease_factor)) := by
  unfold record_review
  dsimp only
  rw [if_neg (not_lt.mpr hq)]
  refine ⟨rfl, fun h0 => by simp [h0], fun h1 => by simp [h1], fun h2 => ?_⟩
  have h0 : s.repetition ≠ 0 := by omega
  have h1 : s.repetition ≠ 1 := by omega
  simp [h0, h1]

/-- Witness for C3 at a state with repetition 2, interval 6,
ease factor 2.6 and quality 5. -/
theorem C3_success_interval_law_witness :
    (record_review ⟨2.6, 6, 2, 0, 0⟩ 5 0).repetition = 2 + 1 ∧
    ((2 : ℤ) = 0 → (record_review ⟨2.6, 6, 2, 0, 0⟩ 5 0).interval = 1) ∧
    ((2 : ℤ) = 1 → (record_review ⟨2.6, 6, 2, 0, 0⟩ 5 0).interval = 6) ∧
    ((2 : ℤ) ≤ 2 → (record_review ⟨2.6, 6, 2, 0, 0⟩ 5 0).interval =
      pyRound (((6 : ℤ) : ℚ) * (record_review ⟨2.6, 6, 2, 0, 0⟩ 5 0).ease_factor)) :=
  C3_success_interval_law ⟨2.6, 6, 2, 0, 0⟩ 5 0 (by norm_num)
    (by norm_num [max_def, min_def])

/-- C4: on a lapse (clamped quality < 3) the update resets repetition to
0 and interval to 1 and leaves the ease factor exactly as it was. -/
theorem C4_lapse_reset (s : Flashcard) (q : ℚ) (now : ℤ)
    (hq : min (max q 0) 5 < 3) :
    (record_review s q now).repetition = 0 ∧
    (record_review s q now).interval = 1 ∧
    (record_review s q now).ease_factor = s.ease_factor := by
  unfold record_review
  dsimp only
  rw [if_pos hq]
  exact ⟨rfl, rfl, rfl⟩

/-- Witness for C4 at quality 2 on the scenario's day-7 state. -/
theorem C4_lapse_reset_witness :
    (record_review ⟨2.6, 6, 2, 0, 0⟩ 2 0).repetition = 0 ∧
    (record_review ⟨2.6, 6, 2, 0, 0⟩ 2 0).interval = 1 ∧
    (record_review ⟨2.6, 6, 2, 0, 0⟩ 2 0).ease_factor = (2.6 : ℚ) :=
  C4_lapse_reset ⟨2.6, 6, 2, 0, 0⟩ 2 0 (by norm_num [max_def, min_def])

/-- C5 counterexample: at a state with `interval = 0` (and any evaluation
time, here one day after `updated_at`) the strength estimate faults on
the division by `interval * 0.5 = 0` instead of returning a defined
result, so it does not treat the interval as 1. -/
theorem C5_counterexample :
    ¬ (calculate_memory_strength ⟨2.5, 0, 0, 0, 0⟩ secondsPerDay).isSome := by
  decide

/-- C5 amended: the strength estimate has no `interval = 0` guard — it
returns no value (a `ZeroDivisionError` in the source) exactly when
`interval = 0`, and a defined result for every other interval. -/
theorem C5_strength_defined_iff (s : Flashcard) (now : ℤ) :
    calculate_memory_strength s now = none ↔ s.interval = 0 := by
  unfold calculate_memory_strength
  dsimp only
  split
  · simp_all
  · simp_all

/-- C6: the review update clamps quality to [0,5] before use and raises
no error on out-of-range input — quality 7 gives exactly the state
quality 5 gives, and quality −3 gives exactly the state quality 0
gives. -/
theorem C6_quality_clamp (s : Flashcard) (now : ℤ) :
    record_review s 7 now = record_review s 5 now ∧
    record_review s (-3) now = record_review s 0 now := by
  constructor
  · unfold record_review
    norm_num [max_def, min_def]
  · unfold record_review
    norm_num [max_def, min_def]

/-- C7 counterexample: elapsed days are not clamped at 0 — one day
before `updated_at` the floor-truncated elapsed is −1, so on a card with
`interval = 1` the strength is 1/5 there and 1 at `updated_at` itself:
advancing the evaluation time from `updated_at − 1 day` to `updated_at`
strictly increases the strength, refuting non-increase for all
`t1 ≤ t2`. -/
theorem C7_counterexample :
    (calculate_memory_strength ⟨2.5, 1, 0, 0, 0⟩ (-secondsPerDay)).getD 0 <
      (calculate_memory_strength ⟨2.5, 1, 0, 0, 0⟩ 0).getD 0 := by
  have hf1 : Int.fdiv (-secondsPerDay - 0) secondsPerDay = -1 := by decide
  have hf2 : Int.fdiv ((0 : ℤ) - 0) secondsPerDay = 0 := by decide
  simp only [calculate_memory_strength, hf1, hf2]
  norm_num [max_def, min_def]

/-- C7 amended: for every state with `interval ≥ 1` the strength
estimate is non-increasing as the evaluation time advances over times at
or after `updated_at`; elapsed days are floor-truncated and become
negative (not 0) when the evaluation time precedes `updated_at`, where
the estimate is below 1 and can increase with time. -/
theorem C7_monotone_decay (s : Flashcard) (t1 t2 : ℤ)
    (hi : 1 ≤ s.interval) (h1 : s.updated_at ≤ t1) (h12 : t1 ≤ t2) :
    (calculate_memory_strength s t2).getD 0 ≤
      (calculate_memory_strength s t1).getD 0 := by
  have hne : s.interval ≠ 0 := by omega
  unfold calculate_memory_strength
  dsimp only
  rw [if_neg hne, if_neg hne]
  dsimp only [Option.getD_some]
  have hd : (0 : ℤ) ≤ 86400 := by norm_num
  rw [show secondsPerDay = (86400 : ℤ) from rfl,
    Int.fdiv_eq_ediv _ hd, Int.fdiv_eq_ediv _ hd]
  set e1 : ℤ := (t1 - s.updated_at) / 86400 with he1
  set e2 : ℤ := (t2 - s.updated_at) / 86400 with he2
  have he1nn : (0 : ℤ) ≤ e1 := Int.ediv_nonneg (by omega) hd
  have he12 : e1 ≤ e2 := Int.ediv_le_ediv (by norm_num) (by omega)
  have hc : (0 : ℚ) < (s.interval : ℚ) * 0.5 := by
    have : (1 : ℚ) ≤ (s.interval : ℚ) := by exact_mod_cast hi
    nlinarith
  have hq1 : (0 : ℚ) ≤ (e1 : ℚ) / ((s.interval : ℚ) * 0.5) :=
    div_nonneg (by exact_mod_cast he1nn) hc.le
  have hq12 : (e1 : ℚ) / ((s.interval : ℚ) * 0.5) ≤
      (e2 : ℚ) / ((s.interval : ℚ) * 0.5) :=
    div_le_div_of_nonneg_right (by exact_mod_cast he12) hc.le
  have hsq : ((e1 : ℚ) / ((s.interval : ℚ) * 0.5)) ^ 2 ≤
      ((e2 : ℚ) / ((s.interval : ℚ) * 0.5)) ^ 2 := by
    exact pow_le_pow_left₀ hq1 hq12 2
  have hpos : (0 : ℚ) < 1 + ((e1 : ℚ) / ((s.interval : ℚ) * 0.5)) ^ 2 := by
    positivity
  exact max_le_max (le_refl 0)
    (min_le_min (le_refl 1)
      (one_div_le_one_div_of_le hpos (by linarith)))

/-- Witness for C7 on a fresh card between day 1 and day 2. -/
theorem C7_monotone_decay_witness :
    (calculate_memory_strength freshCard (2 * secondsPerDay)).getD 0 ≤
      (calculate_memory_strength freshCard (1 * secondsPerDay)).getD 0 :=
  C7_monotone_decay freshCard (1 * secondsPerDay) (2 * secondsPerDay)
    (by norm_num [freshCard]) (by norm_num [freshCard, secondsPerDay])
    (by norm_num [secondsPerDay])

/-- C8: for every state with `interval ≥ 1` the strength estimate
returns a value in [0,1] at every evaluation time, and returns exactly 1
at `updated_at` itself (zero elapsed days). -/
theorem C8_strength_bounds (s : Flashcard) (now : ℤ) (hi : 1 ≤ s.interval) :
    (∃ v, calculate_memory_strength s now = some v ∧ 0 ≤ v ∧ v ≤ 1) ∧
    calculate_memory_strength s s.updated_at = some 1 := by
  have hne : s.interval ≠ 0 := by omega
  constructor
  · simp only [calculate_memory_strength]
    rw [if_neg hne]
    exact ⟨_, rfl, le_max_left 0 _, max_le (by norm_num) (min_le_left 1 _)⟩
  · have hf : Int.fdiv (s.updated_at - s.updated_at) secondsPerDay = 0 := by
      rw [sub_self]; decide
    simp only [calculate_memory_strength, hf]
    rw [if_neg hne]
    norm_num [max_def, min_def]

/-- Witness for C8 at a fresh card one day after its update. -/
theorem C8_strength_bounds_witness :
    (∃ v, calculate_memory_strength freshCard secondsPerDay = some v ∧
      0 ≤ v ∧ v ≤ 1) ∧
    calculate_memory_strength freshCard freshCard.updated_at = some 1 :=
  C8_strength_bounds freshCard secondsPerDay (by norm_num [freshCard])

/-- C9 counterexample: on a card with `interval = 1` and `updated_at` at
time 0, evaluating at `updated_at + interval × 0.5 days = 43200` floor
truncates the elapsed days to 0, so the strength is exactly 1 — not
approximately 0.5. -/
theorem C9_counterexample :
    calculate_memory_strength ⟨2.5, 1, 0, 0, 0⟩ 43200 = some 1 := by
  have hf : Int.fdiv ((43200 : ℤ) - 0) secondsPerDay = 0 := by decide
  simp only [calculate_memory_strength, hf]
  norm_num [max_def, min_def]

/-- C9 amended: for every state with an even interval `2k ≥ 2`, the
strength estimate at `updated_at + interval × 0.5 days` is exactly 1/2;
for odd intervals the floor truncation of elapsed days makes the value
larger than 1/2 (equal to 1 when the interval is 1). -/
theorem C9_half_life_even (s : Flashcard) (k : ℤ)
    (hk : 1 ≤ k) (hev : s.interval = 2 * k) :
    calculate_memory_strength s (s.updated_at + s.interval * 43200) =
      some (1/2) := by
  have hne : s.interval ≠ 0 := by omega
  have hf : Int.fdiv (s.updated_at + s.interval * 43200 - s.updated_at)
      secondsPerDay = k := by
    have : s.updated_at + s.interval * 43200 - s.updated_at = k * 86400 := by
      rw [hev]; ring
    rw [this]
    exact Int.mul_fdiv_cancel k (by norm_num)
  simp only [calculate_memory_strength, hf]
  rw [if_neg hne]
  have hk0 : (k : ℚ) ≠ 0 := by
    exact_mod_cast (by omega : k ≠ 0)
  have hden : ((s.interval : ℤ) : ℚ) * 0.5 = (k : ℚ) := by
    rw [hev]; push_cast; ring
  rw [hden, div_self hk0]
  norm_num [max_def, min_def]

/-- Witness for C9 at a card with interval 4 (`k = 2`), updated at
time 0, evaluated at two days. -/
theorem C9_half_life_even_witness :
    calculate_memory_strength ⟨2.5, 4, 0, 0, 0⟩
      ((0 : ℤ) + 4 * 43200) = some (1/2) := by
  have h := C9_half_life_even ⟨2.5, 4, 0, 0, 0⟩ 2 (by norm_num) (by norm_num)
  simpa using h

/-- C10: a review with quality exactly 4 leaves the ease factor
unchanged whenever it is ≥ 1.3 on entry — the adjustment term
`0.1 − (5 − 4) × (0.08 + (5 − 4) × 0.02)` is exactly 0. -/
theorem C10_quality4_ease_neutral (s : Flashcard) (now : ℤ)
    (h : (1.3 : ℚ) ≤ s.ease_factor) :
    (record_review s 4 now).ease_factor = s.ease_factor := by
  unfold record_review
  dsimp only
  rw [if_neg (by norm_num [max_def, min_def])]
  have hq : min (max (4 : ℚ) 0) 5 = 4 := by norm_num [max_def, min_def]
  dsimp only
  rw [hq]
  norm_num
  linarith

/-- Witness for C10 at the fresh card (ease factor 2.5). -/
theorem C10_quality4_ease_neutral_witness :
    (record_review freshCard 4 0).ease_factor = freshCard.ease_factor :=
  C10_quality4_ease_neutral freshCard 0 (by norm_num [freshCard])

end Tutor
